import Mathlib

/-!
Verification of the repository-automation script (src/automate.py).

The script parses GitHub repository URLs, checks reachability through the
REST API, pushes a directory of workflow files via git, uploads sealed
secrets, and updates Actions permissions, finally classifying every
repository as success, partial, or error.

We shallowly embed the script here.  External collaborators (the REST API
and the git subprocess) are modelled as oracle inputs fixing the outcome of
each call; pure string manipulation is embedded directly, following Python
string semantics on code points.
-/

namespace Automate

/-! ## Python string primitives

Python string methods used by automate.py, modelled over code-point lists
with explicit fuel so that all functions reduce inside the kernel.
The fuel is always at least the length of the scanned list plus one, and
every recursive call consumes at least one character, so the fuel never
runs out on the published entry points. -/

/-- Python `s.split(sep)` worker over code points (sep non-empty). -/
def pySplitAux (sep : List Char) : Nat → List Char → List Char → List (List Char)
  | _, acc, [] => [acc.reverse]
  | 0, acc, rest => [acc.reverse ++ rest]
  | fuel + 1, acc, c :: rest =>
    if sep.isPrefixOf (c :: rest) then
      acc.reverse :: pySplitAux sep fuel [] ((c :: rest).drop sep.length)
    else
      pySplitAux sep fuel (c :: acc) rest

/-- Python `s.split(sep)` for a non-empty separator. -/
def pySplitOn (s sep : String) : List String :=
  (pySplitAux sep.toList (s.toList.length + 1) [] s.toList).map List.asString

/-- Python `s.replace(old, new)` worker over code points (old non-empty):
replaces non-overlapping occurrences left to right. -/
def pyReplaceAux (old new : List Char) : Nat → List Char → List Char
  | _, [] => []
  | 0, s => s
  | fuel + 1, c :: rest =>
    if old.isPrefixOf (c :: rest) then
      new ++ pyReplaceAux old new fuel ((c :: rest).drop old.length)
    else
      c :: pyReplaceAux old new fuel rest

/-- Python `s.replace(old, new)` for a non-empty pattern. -/
def pyReplace (s old new : String) : String :=
  (pyReplaceAux old.toList new.toList (s.toList.length + 1) s.toList).asString

/-- Python `s.strip()`: drop whitespace from both ends. -/
def pyStrip (s : String) : String :=
  (((s.toList.dropWhile Char.isWhitespace).reverse.dropWhile Char.isWhitespace).reverse).asString

/-- Python `s.startswith(p)`. -/
def pyStartsWith (s p : String) : Bool :=
  p.toList.isPrefixOf s.toList

/-- Python `s.endswith(p)`. -/
def pyEndsWith (s p : String) : Bool :=
  p.toList.isSuffixOf s.toList

/-! ## Repository locator (`GitHubAutomation.extract_repo_info`) -/

/-- The reassignment `repo_url = repo_url[:-4]` applied when the URL ends
with the version-control suffix `.git`. -/
def urlVcStripped (repo_url : String) : String :=
  if pyEndsWith repo_url ".git" then
    (repo_url.toList.take (repo_url.toList.length - 4)).asString
  else repo_url

/-- The string whose `/`-split becomes `parts` in `extract_repo_info`:
after the `.git` strip, the HTTPS or SSH prefix is removed with Python
`str.replace` (which removes every occurrence); an unknown prefix gives
`none`. -/
def urlRemainder (repo_url : String) : Option String :=
  let u := urlVcStripped repo_url
  if pyStartsWith u "https://github.com/" then
    some (pyReplace u "https://github.com/" "")
  else if pyStartsWith u "git@github.com:" then
    some (pyReplace u "git@github.com:" "")
  else none

/-- `GitHubAutomation.extract_repo_info`: owner/name extraction.  A raised
`ValueError` is embedded as `Except.error` with the interpolated message. -/
def extract_repo_info (repo_url : String) : Except String (String × String) :=
  match urlRemainder repo_url with
  | none => Except.error ("Invalid GitHub URL format: " ++ urlVcStripped repo_url)
  | some r =>
    match pySplitOn r "/" with
    | [a, b] => Except.ok (a, b)
    | _ => Except.error ("Invalid GitHub URL format: " ++ urlVcStripped repo_url)

example : extract_repo_info "https://github.com/anisharma07/c4gt-website" =
    Except.ok ("anisharma07", "c4gt-website") := rfl

example : extract_repo_info "git@github.com:owner/repo.git" =
    Except.ok ("owner", "repo") := rfl

example : extract_repo_info "https://github.com/anisharma07/" =
    Except.ok ("anisharma07", "") := rfl

example : extract_repo_info "ftp://example.com/a/b" =
    Except.error "Invalid GitHub URL format: ftp://example.com/a/b" := rfl

example : extract_repo_info "https://github.com/a/b/c" =
    Except.error "Invalid GitHub URL format: https://github.com/a/b/c" := rfl

/-! ## Orchestration model (`GitHubAutomation.process_repository`)

External calls are oracles recorded in `Env`.  `Except.error m` stands for
a raised exception whose `str(e)` is `m`; `Except.ok` carries the value the
call produced.  The trace of externally visible calls made while processing
one repository is returned alongside the result. -/

/-- One externally visible call made while processing a repository. -/
inductive Event where
  | checkApi : Event
  | cloneGit : Event
  | pushGit : Event
  | secretApi : String → Event
  | permApi : Event
deriving DecidableEq, Repr

/-- Oracle outcomes of the external calls for one repository. -/
structure Env where
  /-- `check_repo_exists`: the GET on the repo either raises or yields
  `status_code == 200`. -/
  checkResult : Except String Bool
  /-- `clone_repo`: raises (message includes "Failed to clone repository:")
  or succeeds. -/
  cloneResult : Except String Unit
  /-- `push_workflows` as seen by the orchestrator: an uncaught exception,
  or the Bool it returns. -/
  pushResult : Except String Bool
  /-- `create_or_update_secret` internals per secret name: an exception
  while fetching the key / encrypting / uploading, or the PUT status. -/
  secretOutcome : String → Except String Nat
  /-- `update_workflow_permissions` internals: exception or PUT status. -/
  permOutcome : Except String Nat

/-- The dictionary returned by `process_repository`: either the short
error-shaped dictionary (repo, status "error", message) or the full result
(repo, status, workflows_pushed, secrets_added in insertion order,
permissions_updated, errors). -/
inductive RResult where
  | err : String → String → RResult
  | full : String → String → Bool → List (String × Bool) → Bool → List String → RResult
deriving DecidableEq, Repr

/-- `result["status"]`. -/
def RResult.status : RResult → String
  | .err _ _ => "error"
  | .full _ s _ _ _ _ => s

/-- `result["errors"]` (the error-shaped dictionary has none). -/
def RResult.errors : RResult → List String
  | .err _ _ => []
  | .full _ _ _ _ _ es => es

/-- `result["secrets_added"]` as an ordered association list (the
error-shaped dictionary has none). -/
def RResult.secretsAdded : RResult → List (String × Bool)
  | .err _ _ => []
  | .full _ _ _ sa _ _ => sa

/-- `result["message"]`, present only in the error-shaped dictionary. -/
def RResult.message : RResult → Option String
  | .err _ m => some m
  | .full _ _ _ _ _ _ => none

/-- Python truthiness of an optional string (`if secret_value:`). -/
def truthy : Option String → Bool
  | none => false
  | some s => !(s == "")

/-- `create_or_update_secret` returns `True` exactly on PUT status 201 or
204; any exception is caught inside it and yields `False`. -/
def apiCreated (o : Except String Nat) : Bool :=
  match o with
  | .error _ => false
  | .ok st => st == 201 || st == 204

/-- `update_workflow_permissions` returns `True` exactly on PUT status 200
or 204; any exception is caught inside it and yields `False`. -/
def apiPermOk (o : Except String Nat) : Bool :=
  match o with
  | .error _ => false
  | .ok st => st == 200 || st == 204

/-- Concatenation of the lists produced per element, in list order. -/
def catMap (f : α → List β) : List α → List β
  | [] => []
  | a :: l => f a ++ catMap f l

/-- One iteration of the secrets loop in `process_repository`: the
`secrets_added` entry, the errors appended, and the API calls made. -/
def secretStep (env : Env) (p : String × Option String) :
    (String × Bool) × List String × List Event :=
  if truthy p.2 then
    let ok := apiCreated (env.secretOutcome p.1)
    ((p.1, ok), (if ok then [] else ["Failed to set secret " ++ p.1]),
      [Event.secretApi p.1])
  else ((p.1, false), [], [])

/-- The whole secrets loop over the configured secrets, in order. -/
def secretsStage (env : Env) (secrets : List (String × Option String)) :
    List (String × Bool) × List String × List Event :=
  (secrets.map (fun p => (secretStep env p).1),
   catMap (fun p => (secretStep env p).2.1) secrets,
   catMap (fun p => (secretStep env p).2.2) secrets)

/-- The clone-and-push block inside the temporary directory: yields
`workflows_pushed`, the errors appended, and the git calls attempted.  An
exception from either call is caught by the inner handler, which appends
"Failed to process workflows: " plus the message. -/
def workflowStage (env : Env) : Bool × List String × List Event :=
  match env.cloneResult with
  | .error e => (false, ["Failed to process workflows: " ++ e], [Event.cloneGit])
  | .ok _ =>
    match env.pushResult with
    | .error e =>
      (false, ["Failed to process workflows: " ++ e], [Event.cloneGit, Event.pushGit])
    | .ok b =>
      (b, if b then [] else ["Failed to push workflows"],
        [Event.cloneGit, Event.pushGit])

/-- `process_repository`: parse the URL, check reachability, then run the
workflow push, the secrets loop and the permissions update, classifying the
result.  Returns the result dictionary and the trace of external calls. -/
def process_repository (url : String) (secrets : List (String × Option String))
    (env : Env) : RResult × List Event :=
  match extract_repo_info url with
  | .error m => (RResult.err url m, [])
  | .ok _ =>
    match env.checkResult with
    | .error m => (RResult.err url m, [Event.checkApi])
    | .ok false =>
      (RResult.err url "Repository not found or not accessible", [Event.checkApi])
    | .ok true =>
      let wf := workflowStage env
      let sec := secretsStage env secrets
      let pOk := apiPermOk env.permOutcome
      let errs := wf.2.1 ++ sec.2.1 ++
        (if pOk then [] else ["Failed to update workflow permissions"])
      (RResult.full url (if errs.isEmpty then "success" else "partial")
        wf.1 sec.1 pOk errs,
       Event.checkApi :: (wf.2.2 ++ sec.2.2 ++ [Event.permApi]))

/-- Oracle where every external call succeeds. -/
def envAllOk : Env :=
  { checkResult := Except.ok true
    cloneResult := Except.ok ()
    pushResult := Except.ok true
    secretOutcome := fun _ => Except.ok 201
    permOutcome := Except.ok 204 }

/-- Oracle where the existence check reports the repository unreachable. -/
def envUnreachable : Env :=
  { envAllOk with checkResult := Except.ok false }

/-- The configured secret names, in the insertion order of
`SECRETS_TO_ADD`. -/
def secretNames : List String :=
  ["AWS_ACCESS_KEY_ID", "AWS_SECRET_ACCESS_KEY", "AWS_REGION", "AWS_BEDROCK_MODEL_ID"]

/-- `SECRETS_TO_ADD`, parametrised by the process environment lookup. -/
def SECRETS_TO_ADD (getenv : String → Option String) : List (String × Option String) :=
  secretNames.map (fun n => (n, getenv n))

example :
    (process_repository "https://github.com/o/r" [("S1", some "v")] envAllOk).1 =
      RResult.full "https://github.com/o/r" "success" true [("S1", true)] true [] := rfl

example :
    (process_repository "https://github.com/o/r" [("S1", some "v"), ("S2", none)]
        envUnreachable).1 =
      RResult.err "https://github.com/o/r" "Repository not found or not accessible" := rfl

example :
    (process_repository "https://github.com/o/r" [("S1", some "v"), ("S2", none)]
        envUnreachable).2 = [Event.checkApi] := rfl

/-! ## Default-branch resolution (`GitHubAutomation.get_default_branch`) -/

/-- Observable git state for `get_default_branch`.  `showCurrent` is the
raw stdout of `git branch --show-current` when the command exits zero
(`none` = non-zero exit, which raises through `check=True`); `symbolicRef`
is the stdout of `git symbolic-ref refs/remotes/origin/HEAD` when its
returncode is zero; the two Booleans say whether `git show-ref --verify`
finds `refs/heads/main` resp. `refs/heads/master`. -/
structure GitState where
  showCurrent : Option String
  symbolicRef : Option String
  hasMain : Bool
  hasMaster : Bool

/-- `result.stdout.strip().split("/")[-1]` applied to the symbolic-ref
output. -/
def lastSegment (s : String) : String :=
  (pySplitOn (pyStrip s) "/").getLastD ""

/-- `get_default_branch`: current branch if non-empty, else remote HEAD,
else the first of main/master that exists, else "main"; any exception
(e.g. `git branch --show-current` failing under `check=True`) yields
"main". -/
def get_default_branch (g : GitState) : String :=
  match g.showCurrent with
  | none => "main"
  | some out =>
    let current := pyStrip out
    if current == "" then
      match g.symbolicRef with
      | some ref => lastSegment ref
      | none =>
        if g.hasMain then "main"
        else if g.hasMaster then "master"
        else "main"
    else current

example : get_default_branch ⟨some "develop\n", some "refs/remotes/origin/x", true, true⟩ =
    "develop" := rfl

example : get_default_branch ⟨some "\n", some "refs/remotes/origin/trunk\n", true, true⟩ =
    "trunk" := rfl

example : get_default_branch ⟨some "", none, false, true⟩ = "master" := rfl

/-! ## Workflow push (`GitHubAutomation.push_workflows`)

The scratch clone's committed workflow directory and the source directory
are finite file sets, modelled as ordered association lists from file name
to content.  `git add` stages the copied directory; `git diff --cached
--quiet` exits zero exactly when the staged tree equals the committed one,
which for these association lists is pointwise lookup equality. -/

/-- A directory as an ordered association list (file name, content). -/
abbrev Fs : Type := List (String × String)

/-- Content of file `k`, first entry wins (a git tree has unique names). -/
def lookupF (k : String) : Fs → Option String
  | [] => none
  | p :: l => if p.1 == k then some p.2 else lookupF k l

/-- `shutil.copy2` into the directory: overwrite the entry when the name
exists, otherwise create the file. -/
def setFile (k v : String) : Fs → Fs
  | [] => [(k, v)]
  | p :: l => if p.1 == k then (k, v) :: l else p :: setFile k v l

/-- The copy loop filter: `workflow_file.endswith(".yml") or
workflow_file.endswith(".yaml")`. -/
def isWorkflowFile (n : String) : Bool :=
  pyEndsWith n ".yml" || pyEndsWith n ".yaml"

/-- The copy loop of `push_workflows`: every workflow file of the source
directory is copied over the destination directory, in listing order. -/
def copyWorkflows (dest src : Fs) : Fs :=
  src.foldl (fun acc p => if isWorkflowFile p.1 then setFile p.1 p.2 acc else acc) dest

/-- The content the copy loop leaves for name `k`: the last workflow file
of the source named `k`, if any. -/
def srcVal (k : String) (s : Fs) : Option String :=
  s.foldl (fun acc p => if isWorkflowFile p.1 && p.1 == k then some p.2 else acc) none

/-- First-some choice on options. -/
def orO (a b : Option String) : Option String :=
  match a with
  | some v => some v
  | none => b

/-- Decidable pointwise equality of two directories: every name mentioned
on either side has the same content on both. -/
def eqFs (a b : Fs) : Bool :=
  ((a ++ b).map (fun p => p.1)).all (fun k => lookupF k a == lookupF k b)

/-- Git invocations of `push_workflows`, in order. -/
inductive GEvent where
  | add : GEvent
  | diffCheck : GEvent
  | commit : GEvent
  | push : GEvent
deriving DecidableEq, Repr

/-- Success/failure of the git subprocesses `push_workflows` may run
(`git add`, `git commit`, `git push`); the diff check cannot fail. -/
structure PushEnv where
  addOk : Bool
  commitOk : Bool
  pushOk : Bool

/-- `push_workflows` over the file model: copy the workflow files, stage
them, short-circuit with success when the staged diff is empty, otherwise
commit and push.  Returns (returned Bool, resulting remote workflow
directory, git calls attempted); a failed subprocess raises
`CalledProcessError`, which the function catches and turns into `False`,
leaving the remote unchanged (the scratch clone is discarded). -/
def push_workflows (repo src : Fs) (e : PushEnv) : Bool × Fs × List GEvent :=
  let staged := copyWorkflows repo src
  if !e.addOk then (false, repo, [GEvent.add])
  else if eqFs staged repo then (true, repo, [GEvent.add, GEvent.diffCheck])
  else if !e.commitOk then
    (false, repo, [GEvent.add, GEvent.diffCheck, GEvent.commit])
  else if !e.pushOk then
    (false, repo, [GEvent.add, GEvent.diffCheck, GEvent.commit, GEvent.push])
  else (true, staged, [GEvent.add, GEvent.diffCheck, GEvent.commit, GEvent.push])

example :
    push_workflows [] [("ci.yml", "run"), ("notes.txt", "x")] ⟨true, true, true⟩ =
      (true, [("ci.yml", "run")],
        [GEvent.add, GEvent.diffCheck, GEvent.commit, GEvent.push]) := rfl

example :
    push_workflows [("ci.yml", "run")] [("ci.yml", "run"), ("notes.txt", "x")]
        ⟨true, true, true⟩ =
      (true, [("ci.yml", "run")], [GEvent.add, GEvent.diffCheck]) := rfl

/-! ## Entry point (`main` plus the module-level token check) -/

/-- The uncommented entries of `repo_urls`. -/
def repo_urls : List String :=
  ["https://github.com/anisharma07/c4gt-website",
   "https://github.com/anisharma07/Invoice-PPT-Subscribe-Storacha-Storage",
   "https://github.com/anisharma07/web3-invoice-token-gated-storacha"]

/-- The whole script run: the module level exits with code 1 when
`GITHUB_TOKEN` is unset, `main` exits with code 1 when the workflow source
directory is missing, and otherwise every configured repository is
processed in order and the script falls off the end of `main` with exit
code 0.  Returns (exit code, result list). -/
def runScript (tokenSet workflowsDirExists : Bool)
    (secrets : List (String × Option String)) (envs : String → Env) :
    Nat × List RResult :=
  if !tokenSet then (1, [])
  else if !workflowsDirExists then (1, [])
  else (0, repo_urls.map (fun u => (process_repository u secrets (envs u)).1))

/-! ## Lemmas about the file model -/

theorem orO_none_right (a : Option String) : orO a none = a := by
  cases a <;> rfl

theorem orO_absorb (a b : Option String) : orO a (orO a b) = orO a b := by
  cases a <;> rfl

theorem orO_assoc (a b c : Option String) : orO (orO a b) c = orO a (orO b c) := by
  cases a <;> rfl

theorem lookupF_setFile_self (k v : String) (l : Fs) :
    lookupF k (setFile k v l) = some v := by
  induction l with
  | nil => simp [setFile, lookupF]
  | cons p rest ih =>
    by_cases hp : (p.1 == k) = true
    · simp [setFile, hp, lookupF]
    · simp only [Bool.not_eq_true] at hp
      simp [setFile, hp, lookupF, ih]

theorem lookupF_setFile_ne (k0 k v : String) (l : Fs) (hne : (k0 == k) = false) :
    lookupF k (setFile k0 v l) = lookupF k l := by
  induction l with
  | nil => simp [setFile, lookupF, hne]
  | cons p rest ih =>
    by_cases hp : (p.1 == k0) = true
    · have hp1 : p.1 = k0 := eq_of_beq hp
      simp [setFile, hp, lookupF, hne, hp1]
    · simp only [Bool.not_eq_true] at hp
      by_cases hpk : (p.1 == k) = true
      · simp [setFile, hp, lookupF, hpk]
      · simp only [Bool.not_eq_true] at hpk
        simp [setFile, hp, lookupF, hpk, ih]

theorem foldl_orO (f : Option String → (String × String) → Option String)
    (hf : ∀ i p, f i p = orO (f none p) i) (s : Fs) (i : Option String) :
    s.foldl f i = orO (s.foldl f none) i := by
  induction s generalizing i with
  | nil => cases i <;> rfl
  | cons p rest ih =>
    simp only [List.foldl_cons]
    rw [ih (f i p), ih (f none p), hf i p, ← orO_assoc]

theorem srcVal_foldl (k : String) (s : Fs) (i : Option String) :
    s.foldl (fun acc p => if isWorkflowFile p.1 && p.1 == k then some p.2 else acc) i =
      orO (srcVal k s) i := by
  refine foldl_orO _ (fun j p => ?_) s i
  by_cases hc : (isWorkflowFile p.1 && p.1 == k) = true <;> simp [hc, orO]

theorem lookupF_copyWorkflows (k : String) (d s : Fs) :
    lookupF k (copyWorkflows d s) = orO (srcVal k s) (lookupF k d) := by
  induction s generalizing d with
  | nil => simp [copyWorkflows, srcVal, orO]
  | cons p rest ih =>
    have hcw : copyWorkflows d (p :: rest) =
        copyWorkflows (if isWorkflowFile p.1 then setFile p.1 p.2 d else d) rest := rfl
    have hs : srcVal k (p :: rest) =
        orO (srcVal k rest)
          (if isWorkflowFile p.1 && p.1 == k then some p.2 else none) :=
      srcVal_foldl k rest _
    rw [hcw, ih, hs, orO_assoc]
    congr 1
    by_cases hw : isWorkflowFile p.1 = true
    · by_cases hk : (p.1 == k) = true
      · have hk1 : p.1 = k := eq_of_beq hk
        simp only [hw, hk, Bool.and_self, if_pos]
        rw [hk1, lookupF_setFile_self]
        rfl
      · simp only [Bool.not_eq_true] at hk
        simp only [hw, hk, Bool.and_false, Bool.false_eq_true, if_neg,
          not_false_eq_true, if_pos]
        rw [lookupF_setFile_ne p.1 k p.2 d hk]
        rfl
    · simp only [Bool.not_eq_true] at hw
      simp only [hw, Bool.false_and, Bool.false_eq_true, if_neg, not_false_eq_true]
      rfl

theorem eqFs_of_pointwise (a b : Fs) (h : ∀ k, lookupF k a = lookupF k b) :
    eqFs a b = true := by
  simp only [eqFs, List.all_eq_true]
  intro k _
  rw [h k]
  exact beq_self_eq_true _

theorem copyWorkflows_idem (d s : Fs) :
    eqFs (copyWorkflows (copyWorkflows d s) s) (copyWorkflows d s) = true := by
  apply eqFs_of_pointwise
  intro k
  rw [lookupF_copyWorkflows, lookupF_copyWorkflows]
  cases srcVal k s <;> simp [orO]

/-! ## Claim C3 -/

/-- C3 counterexample: the claim says the locator fails with
`InvalidReference` whenever the remainder does not split into exactly two
NON-EMPTY segments.  But for the URL "https://github.com/anisharma07/" the
remainder splits into the two segments "anisharma07" and "" — the second
one empty — and the locator nevertheless returns the pair with an empty
repository name instead of failing. -/
theorem c3_counterexample :
    extract_repo_info "https://github.com/anisharma07/" =
      Except.ok ("anisharma07", "") ∧
    pySplitOn "anisharma07/" "/" = ["anisharma07", ""] :=
  ⟨rfl, rfl⟩

/-- C3 (amended): for every input URL the locator fails with an
InvalidReference error exactly when, after stripping the version-control
suffix and removing the known HTTPS or SSH prefix, the remainder does not
split on "/" into exactly two segments — the segments are not required to
be non-empty; otherwise it returns the two segments as the (owner, name)
pair. -/
theorem c3_amended_locator (url : String) :
    match urlRemainder url with
    | none => ∃ m, extract_repo_info url = Except.error m
    | some r =>
      match pySplitOn r "/" with
      | [a, b] => extract_repo_info url = Except.ok (a, b)
      | _ => ∃ m, extract_repo_info url = Except.error m := by
  rcases hrem : urlRemainder url with _ | r
  · exact ⟨"Invalid GitHub URL format: " ++ urlVcStripped url,
      by simp [extract_repo_info, hrem]⟩
  · dsimp only
    generalize hsplit : pySplitOn r "/" = parts
    rcases parts with _ | ⟨a, _ | ⟨b, _ | ⟨c, rest⟩⟩⟩
    · exact ⟨"Invalid GitHub URL format: " ++ urlVcStripped url,
        by simp [extract_repo_info, hrem, hsplit]⟩
    · exact ⟨"Invalid GitHub URL format: " ++ urlVcStripped url,
        by simp [extract_repo_info, hrem, hsplit]⟩
    · simp [extract_repo_info, hrem, hsplit]
    · exact ⟨"Invalid GitHub URL format: " ++ urlVcStripped url,
        by simp [extract_repo_info, hrem, hsplit]⟩

/-! ## Claim C4 -/

/-- C4: the workflow-push stage is idempotent.  First conjunct: when the
staged diff after copying is empty (and staging itself succeeded), the
stage reports success having attempted neither a commit nor a push, and
leaves the remote unchanged.  Second conjunct: if a run of the stage
reported success, a second run against the unchanged source directory
(with a working `git add`) short-circuits: it reports success and its git
trace is exactly add-then-diff-check — no commit, no push. -/
theorem c4_push_idempotent (repo src : Fs) (e1 e2 : PushEnv) :
    (e1.addOk = true → eqFs (copyWorkflows repo src) repo = true →
      push_workflows repo src e1 = (true, repo, [GEvent.add, GEvent.diffCheck])) ∧
    ((push_workflows repo src e1).1 = true → e2.addOk = true →
      push_workflows (push_workflows repo src e1).2.1 src e2 =
        (true, (push_workflows repo src e1).2.1, [GEvent.add, GEvent.diffCheck])) := by
  constructor
  · intro ha hd
    simp [push_workflows, ha, hd]
  · intro h1 ha2
    by_cases ha : e1.addOk = true
    · by_cases hd : eqFs (copyWorkflows repo src) repo = true
      · simp [push_workflows, ha, hd, ha2]
      · by_cases hc : e1.commitOk = true
        · by_cases hp : e1.pushOk = true
          · simp only [push_workflows, ha, hd, hc, hp, Bool.not_true,
              Bool.false_eq_true, if_neg, not_false_eq_true, if_pos] at h1 ⊢
            simp [ha2, copyWorkflows_idem repo src]
          · simp only [Bool.not_eq_true] at hp
            simp [push_workflows, ha, hd, hc, hp] at h1
        · simp only [Bool.not_eq_true] at hc
          simp [push_workflows, ha, hd, hc] at h1
    · simp only [Bool.not_eq_true] at ha
      simp [push_workflows, ha] at h1

/-- C4 witness: a concrete successful first run (empty repo, one workflow
file) after which the second run reports success with no commit. -/
theorem c4_witness :
    push_workflows (push_workflows [] [("deploy.yml", "run")] ⟨true, true, true⟩).2.1
        [("deploy.yml", "run")] ⟨true, true, true⟩ =
      (true, (push_workflows [] [("deploy.yml", "run")] ⟨true, true, true⟩).2.1,
        [GEvent.add, GEvent.diffCheck]) :=
  (c4_push_idempotent [] [("deploy.yml", "run")] ⟨true, true, true⟩
    ⟨true, true, true⟩).2 rfl rfl

/-! ## Claim C5 -/

/-- C5: default-branch resolution follows the strict preference order: the
stripped current branch name when non-empty; else the last segment of the
remote symbolic HEAD when that lookup succeeded; else the first of main
then master existing as a local ref; else the literal "main". -/
theorem c5_default_branch_order (g : GitState) (out : String)
    (h : g.showCurrent = some out) :
    (pyStrip out ≠ "" → get_default_branch g = pyStrip out) ∧
    (pyStrip out = "" → ∀ ref, g.symbolicRef = some ref →
      get_default_branch g = lastSegment ref) ∧
    (pyStrip out = "" → g.symbolicRef = none →
      get_default_branch g =
        (if g.hasMain then "main" else if g.hasMaster then "master" else "main")) := by
  refine ⟨fun hne => ?_, fun he ref href => ?_, fun he href => ?_⟩
  · have hb : (pyStrip out == "") = false := by
      cases hx : pyStrip out == ""
      · rfl
      · exact absurd (eq_of_beq hx) hne
    simp [get_default_branch, h, hb]
  · simp [get_default_branch, h, he, href]
  · simp [get_default_branch, h, he, href]

/-- C5 witness: a detached-HEAD state (empty current branch) with a remote
symbolic HEAD pointing at origin/trunk resolves to "trunk". -/
theorem c5_witness :
    get_default_branch ⟨some "\n", some "refs/remotes/origin/trunk\n", false, true⟩ =
      lastSegment "refs/remotes/origin/trunk\n" :=
  (c5_default_branch_order
    ⟨some "\n", some "refs/remotes/origin/trunk\n", false, true⟩ "\n" rfl).2.1
    rfl "refs/remotes/origin/trunk\n" rfl

/-! ## Lemmas about the orchestration model -/

theorem secretStep_fst (env : Env) (p : String × Option String) :
    (secretStep env p).1 =
      (p.1, if truthy p.2 then apiCreated (env.secretOutcome p.1) else false) := by
  by_cases h : truthy p.2 = true <;> simp [secretStep, h]

theorem secretStep_errs (env : Env) (p : String × Option String) :
    (secretStep env p).2.1 =
      if truthy p.2 then
        (if apiCreated (env.secretOutcome p.1) then []
         else ["Failed to set secret " ++ p.1])
      else [] := by
  by_cases h : truthy p.2 = true <;> simp [secretStep, h]

theorem secretStep_events (env : Env) (p : String × Option String) :
    (secretStep env p).2.2 =
      if truthy p.2 then [Event.secretApi p.1] else [] := by
  by_cases h : truthy p.2 = true <;> simp [secretStep, h]

theorem secretsStage_added (env : Env) (secrets : List (String × Option String)) :
    (secretsStage env secrets).1 =
      secrets.map (fun p =>
        (p.1, if truthy p.2 then apiCreated (env.secretOutcome p.1) else false)) := by
  simp [secretsStage, secretStep_fst]

theorem mem_catMap_of (f : α → List β) (l : List α) (a : α) (ha : a ∈ l)
    (b : β) (hb : b ∈ f a) : b ∈ catMap f l := by
  induction l with
  | nil => cases ha
  | cons c rest ih =>
    rcases List.mem_cons.mp ha with rfl | ha'
    · exact List.mem_append.mpr (Or.inl hb)
    · exact List.mem_append.mpr (Or.inr (ih ha'))

theorem not_mem_catMap (f : α → List β) (l : List α) (b : β)
    (h : ∀ a ∈ l, b ∉ f a) : b ∉ catMap f l := by
  induction l with
  | nil => simp [catMap]
  | cons c rest ih =>
    intro hmem
    rcases List.mem_append.mp hmem with hc | hr
    · exact h c (List.mem_cons_self c rest) hc
    · exact ih (fun a ha => h a (List.mem_cons_of_mem c ha)) hr

/-- Full reduction of `process_repository` in the reachable case. -/
theorem process_repository_reachable (url : String)
    (secrets : List (String × Option String)) (env : Env) (o n : String)
    (hparse : extract_repo_info url = Except.ok (o, n))
    (hcheck : env.checkResult = Except.ok true) :
    process_repository url secrets env =
      (RResult.full url
        (if ((workflowStage env).2.1 ++ (secretsStage env secrets).2.1 ++
            (if apiPermOk env.permOutcome then []
             else ["Failed to update workflow permissions"])).isEmpty
         then "success" else "partial")
        (workflowStage env).1 (secretsStage env secrets).1
        (apiPermOk env.permOutcome)
        ((workflowStage env).2.1 ++ (secretsStage env secrets).2.1 ++
          (if apiPermOk env.permOutcome then []
           else ["Failed to update workflow permissions"])),
       Event.checkApi ::
         ((workflowStage env).2.2 ++ (secretsStage env secrets).2.2 ++
           [Event.permApi])) := by
  simp [process_repository, hparse, hcheck]

/-- Character 10 of the per-secret failure message is the "s" of "set",
whatever the secret name is. -/
theorem secret_msg_char10 (x : String) :
    ("Failed to set secret " ++ x).data[10]? = some 's' := by
  rw [String.data_append, List.getElem?_append_left (by decide)]
  decide

/-- A string whose character 10 is not that "s" is not a per-secret
failure message. -/
theorem ne_secret_msg (a : String) (ha : a.data[10]? ≠ some 's') (x : String) :
    a ≠ "Failed to set secret " ++ x := by
  intro h
  exact ha (by rw [h]; exact secret_msg_char10 x)

/-- The workflow-stage error messages are never per-secret failure
messages. -/
theorem secret_err_not_mem_workflowStage (env : Env) (x : String) :
    ("Failed to set secret " ++ x) ∉ (workflowStage env).2.1 := by
  rcases hc : env.cloneResult with e | u
  · simp only [workflowStage, hc, List.mem_singleton]
    intro h
    exact ne_secret_msg ("Failed to process workflows: " ++ e)
      (by rw [String.data_append, List.getElem?_append_left (by decide)]; decide)
      x h.symm
  · rcases hp : env.pushResult with e | b
    · simp only [workflowStage, hc, hp, List.mem_singleton]
      intro h
      exact ne_secret_msg ("Failed to process workflows: " ++ e)
        (by rw [String.data_append, List.getElem?_append_left (by decide)]; decide)
        x h.symm
    · cases b
      · simp only [workflowStage, hc, hp, Bool.false_eq_true, if_neg,
          not_false_eq_true, List.mem_singleton]
        intro h
        exact ne_secret_msg "Failed to push workflows" (by decide) x h.symm
      · simp [workflowStage, hc, hp]

/-- The permission-stage error message is never a per-secret failure
message. -/
theorem secret_err_not_mem_perm (pOk : Bool) (x : String) :
    ("Failed to set secret " ++ x) ∉
      (if pOk then [] else ["Failed to update workflow permissions"]) := by
  cases pOk
  · simp only [Bool.false_eq_true, if_neg, not_false_eq_true, List.mem_singleton]
    intro h
    exact ne_secret_msg "Failed to update workflow permissions" (by decide) x h.symm
  · simp

/-! ## Claim C1 -/

/-- C1: the result status is "error" iff locating or the existence check
failed (parse error, exception, or a non-200 response); "success" iff the
repository is reachable and the recorded errors list is empty after all
stages; and "partial" iff reachable with at least one recorded error. -/
theorem c1_status_classification (url : String)
    (secrets : List (String × Option String)) (env : Env) :
    ((process_repository url secrets env).1.status = "error" ↔
      ¬((extract_repo_info url).isOk = true ∧ env.checkResult = Except.ok true)) ∧
    ((process_repository url secrets env).1.status = "success" ↔
      ((extract_repo_info url).isOk = true ∧ env.checkResult = Except.ok true ∧
        (process_repository url secrets env).1.errors = [])) ∧
    ((process_repository url secrets env).1.status = "partial" ↔
      ((extract_repo_info url).isOk = true ∧ env.checkResult = Except.ok true ∧
        (process_repository url secrets env).1.errors ≠ [])) := by
  rcases hE : extract_repo_info url with m | v
  · have hr : process_repository url secrets env = (RResult.err url m, []) := by
      simp [process_repository, hE]
    rw [hr]
    simp [RResult.status, RResult.errors, hE, Except.isOk, Except.toBool]
  · obtain ⟨o, n⟩ := v
    rcases hC : env.checkResult with m | b
    · have hr : process_repository url secrets env =
          (RResult.err url m, [Event.checkApi]) := by
        simp [process_repository, hE, hC]
      rw [hr]
      simp [RResult.status, RResult.errors, hE, hC, Except.isOk, Except.toBool]
    · cases b
      · have hr : process_repository url secrets env =
            (RResult.err url "Repository not found or not accessible",
              [Event.checkApi]) := by
          simp [process_repository, hE, hC]
        rw [hr]
        simp [RResult.status, RResult.errors, hE, hC, Except.isOk, Except.toBool]
      · rw [process_repository_reachable url secrets env o n hE hC]
        simp only [RResult.status, RResult.errors]
        by_cases he :
            ((workflowStage env).2.1 ++ (secretsStage env secrets).2.1 ++
              (if apiPermOk env.permOutcome then []
               else ["Failed to update workflow permissions"])).isEmpty = true
        · have he' := List.isEmpty_iff.mp he
          rw [if_pos he]
          simp [he', hE, hC, Except.isOk, Except.toBool]
        · have he' : ((workflowStage env).2.1 ++ (secretsStage env secrets).2.1 ++
              (if apiPermOk env.permOutcome then []
               else ["Failed to update workflow permissions"])) ≠ [] := by
            intro hh
            rw [hh] at he
            exact he rfl
          rw [if_neg he]
          simp [he', hE, hC, Except.isOk, Except.toBool]
          intro h1 h2
          cases hb : apiPermOk env.permOutcome
          · rfl
          · exact absurd (by simp [h1, h2, hb]) he'

/-! ## Claim C9 -/

/-- C9: `process_repository` is total at its interface: it always returns
a result, and any exception escaping the inner handlers — which can only
arise while locating (URL parse) or checking reachability — yields an
error-status result carrying the exception message; when the check
succeeds with 200 the status is never "error". -/
theorem c9_total_error_reporting (url : String)
    (secrets : List (String × Option String)) (env : Env) :
    match extract_repo_info url with
    | Except.error m => process_repository url secrets env = (RResult.err url m, [])
    | Except.ok _ =>
      match env.checkResult with
      | Except.error m =>
        process_repository url secrets env = (RResult.err url m, [Event.checkApi])
      | Except.ok false =>
        (process_repository url secrets env).1 =
          RResult.err url "Repository not found or not accessible"
      | Except.ok true =>
        (process_repository url secrets env).1.status ≠ "error" := by
  rcases hE : extract_repo_info url with m | v
  · simp [process_repository, hE]
  · dsimp only
    rcases hC : env.checkResult with m | b
    · simp [process_repository, hE, hC]
    · cases b
      · simp [process_repository, hE, hC]
      · obtain ⟨o, n⟩ := v
        rw [process_repository_reachable url secrets env o n hE hC]
        simp only [RResult.status]
        by_cases he :
            ((workflowStage env).2.1 ++ (secretsStage env secrets).2.1 ++
              (if apiPermOk env.permOutcome then []
               else ["Failed to update workflow permissions"])).isEmpty = true
        · rw [if_pos he]
          simp
        · rw [if_neg he]
          simp

/-! ## Claim C2 -/

/-- C2 counterexample: for a reachable-looking URL whose existence check
fails, the claim predicts that the secret-provisioning and
permission-update stages are still attempted.  In fact the function
returns the error result immediately: the whole external-call trace is the
single existence check — no secret API call and no permission API call is
ever made. -/
theorem c2_counterexample :
    (process_repository "https://github.com/anisharma07/c4gt-website"
        [("AWS_ACCESS_KEY_ID", some "key")] envUnreachable).2 = [Event.checkApi] ∧
    ¬(Event.secretApi "AWS_ACCESS_KEY_ID" ∈
        (process_repository "https://github.com/anisharma07/c4gt-website"
          [("AWS_ACCESS_KEY_ID", some "key")] envUnreachable).2) ∧
    ¬(Event.permApi ∈
        (process_repository "https://github.com/anisharma07/c4gt-website"
          [("AWS_ACCESS_KEY_ID", some "key")] envUnreachable).2) ∧
    (process_repository "https://github.com/anisharma07/c4gt-website"
        [("AWS_ACCESS_KEY_ID", some "key")] envUnreachable).1.status = "error" := by
  refine ⟨rfl, ?_, ?_, rfl⟩ <;> decide

/-- C2 (amended): when the existence check fails, the repository is
reported with status "error" and none of the remaining stages is attempted
(the trace stops at the existence check); it is when the clone or the push
of a reachable repository fails that the secret and permission stages are
still attempted. -/
theorem c2_amended_unreachable_skips_stages (url : String)
    (secrets : List (String × Option String)) (env : Env) (o n : String)
    (hparse : extract_repo_info url = Except.ok (o, n)) :
    (env.checkResult = Except.ok false →
      (process_repository url secrets env).2 = [Event.checkApi] ∧
      (process_repository url secrets env).1 =
        RResult.err url "Repository not found or not accessible") ∧
    (env.checkResult = Except.ok true → env.cloneResult.isOk = false →
      Event.permApi ∈ (process_repository url secrets env).2 ∧
      (∀ p ∈ secrets, truthy p.2 = true →
        Event.secretApi p.1 ∈ (process_repository url secrets env).2)) := by
  constructor
  · intro hcheck
    constructor <;> simp [process_repository, hparse, hcheck]
  · intro hcheck _
    rw [process_repository_reachable url secrets env o n hparse hcheck]
    constructor
    · simp
    · intro p hp ht
      simp only [List.mem_cons, List.mem_append]
      refine Or.inr (Or.inl (Or.inr ?_))
      exact mem_catMap_of _ secrets p hp _ (by rw [secretStep_events, if_pos ht]; simp)

/-- C2 amended witness: concrete unreachable repository, stages skipped. -/
theorem c2_amended_witness :
    ((process_repository "https://github.com/anisharma07/c4gt-website"
        [("AWS_ACCESS_KEY_ID", some "key")] envUnreachable).2 = [Event.checkApi] ∧
      (process_repository "https://github.com/anisharma07/c4gt-website"
          [("AWS_ACCESS_KEY_ID", some "key")] envUnreachable).1 =
        RResult.err "https://github.com/anisharma07/c4gt-website"
          "Repository not found or not accessible") :=
  (c2_amended_unreachable_skips_stages "https://github.com/anisharma07/c4gt-website"
    [("AWS_ACCESS_KEY_ID", some "key")] envUnreachable "anisharma07" "c4gt-website"
    rfl).1 rfl

/-! ## Claim C6 -/

/-- C6: for every secret upload, PUT status 201 or 204 is recorded as
success and anything else (any other status, or an exception) as failure —
`apiCreated` is exactly that predicate — and the failure is non-fatal: the
`secrets_added` mapping covers every configured secret by this rule, every
secret with a truthy value gets its API attempt, and the permission stage
is still attempted afterwards. -/
theorem c6_secret_upload_outcomes (url : String)
    (secrets : List (String × Option String)) (env : Env) (o n : String)
    (hparse : extract_repo_info url = Except.ok (o, n))
    (hcheck : env.checkResult = Except.ok true) :
    ((process_repository url secrets env).1.secretsAdded =
      secrets.map (fun p =>
        (p.1, if truthy p.2 then apiCreated (env.secretOutcome p.1) else false))) ∧
    (∀ p ∈ secrets, truthy p.2 = true →
      Event.secretApi p.1 ∈ (process_repository url secrets env).2) ∧
    Event.permApi ∈ (process_repository url secrets env).2 := by
  rw [process_repository_reachable url secrets env o n hparse hcheck]
  refine ⟨?_, ?_, ?_⟩
  · simp only [RResult.secretsAdded]
    exact secretsStage_added env secrets
  · intro p hp ht
    simp only [List.mem_cons, List.mem_append]
    refine Or.inr (Or.inl (Or.inr ?_))
    exact mem_catMap_of _ secrets p hp _ (by rw [secretStep_events, if_pos ht]; simp)
  · simp

/-- C6 witness: one succeeding (201), one failing (500) and one erroring
secret, all recorded by the 201/204 rule, all attempted, permissions still
attempted. -/
theorem c6_witness :
    ((process_repository "https://github.com/o/r"
        [("A", some "v"), ("B", some "w"), ("C", some "z")]
        { envAllOk with
          secretOutcome := fun nm =>
            if nm == "A" then Except.ok 201
            else if nm == "B" then Except.ok 500
            else Except.error "boom" }).1.secretsAdded =
      [("A", some "v"), ("B", some "w"), ("C", some "z")].map (fun p =>
        (p.1, if truthy p.2 then
          apiCreated (({ envAllOk with
            secretOutcome := fun nm =>
              if nm == "A" then Except.ok 201
              else if nm == "B" then Except.ok 500
              else Except.error "boom" } : Env).secretOutcome p.1) else false))) ∧
    (∀ p ∈ [("A", some "v"), ("B", some "w"), ("C", some "z")], truthy p.2 = true →
      Event.secretApi p.1 ∈ (process_repository "https://github.com/o/r"
        [("A", some "v"), ("B", some "w"), ("C", some "z")]
        { envAllOk with
          secretOutcome := fun nm =>
            if nm == "A" then Except.ok 201
            else if nm == "B" then Except.ok 500
            else Except.error "boom" }).2) ∧
    Event.permApi ∈ (process_repository "https://github.com/o/r"
        [("A", some "v"), ("B", some "w"), ("C", some "z")]
        { envAllOk with
          secretOutcome := fun nm =>
            if nm == "A" then Except.ok 201
            else if nm == "B" then Except.ok 500
            else Except.error "boom" }).2 :=
  c6_secret_upload_outcomes "https://github.com/o/r"
    [("A", some "v"), ("B", some "w"), ("C", some "z")]
    { envAllOk with
      secretOutcome := fun nm =>
        if nm == "A" then Except.ok 201
        else if nm == "B" then Except.ok 500
        else Except.error "boom" } "o" "r" rfl rfl

/-! ## Claim C7 -/

theorem string_append_cancel {s a b : String} (h : s ++ a = s ++ b) : a = b := by
  apply String.ext
  have hd := congrArg String.data h
  rw [String.data_append, String.data_append] at hd
  exact List.append_cancel_left hd

theorem secretApi_not_mem_wfEvents (env : Env) (x : String) :
    Event.secretApi x ∉ (workflowStage env).2.2 := by
  rcases hc : env.cloneResult with e | u
  · simp [workflowStage, hc]
  · rcases hp : env.pushResult with e | b <;> simp [workflowStage, hc, hp]

theorem secretApi_not_mem_secEvents (env : Env)
    (secrets : List (String × Option String)) (p : String × Option String)
    (hmem : p ∈ secrets) (hskip : truthy p.2 = false)
    (hnodup : (secrets.map Prod.fst).Nodup) :
    Event.secretApi p.1 ∉ (secretsStage env secrets).2.2 := by
  apply not_mem_catMap
  intro q hq
  rw [secretStep_events]
  by_cases ht : truthy q.2 = true
  · rw [if_pos ht]
    simp only [List.mem_singleton]
    intro hcontra
    have hname : p.1 = q.1 := by injection hcontra
    have hpq : p = q := List.inj_on_of_nodup_map hnodup hmem hq hname
    rw [hpq, ht] at hskip
    exact Bool.noConfusion hskip
  · rw [if_neg ht]
    exact List.not_mem_nil _

theorem secret_err_not_mem_secErrs (env : Env)
    (secrets : List (String × Option String)) (p : String × Option String)
    (hmem : p ∈ secrets) (hskip : truthy p.2 = false)
    (hnodup : (secrets.map Prod.fst).Nodup) :
    ("Failed to set secret " ++ p.1) ∉ (secretsStage env secrets).2.1 := by
  apply not_mem_catMap
  intro q hq
  rw [secretStep_errs]
  by_cases ht : truthy q.2 = true
  · rw [if_pos ht]
    by_cases ha : apiCreated (env.secretOutcome q.1) = true
    · rw [if_pos ha]
      exact List.not_mem_nil _
    · rw [if_neg ha]
      simp only [List.mem_singleton]
      intro hcontra
      have hname : p.1 = q.1 := string_append_cancel hcontra
      have hpq : p = q := List.inj_on_of_nodup_map hnodup hmem hq hname
      rw [hpq, ht] at hskip
      exact Bool.noConfusion hskip
  · rw [if_neg ht]
    exact List.not_mem_nil _

/-- C7: a configured secret with an empty or absent value is skipped: its
loop iteration makes no API call and appends no error, the result maps it
to false (not-added), its name never reaches the secret API, and no error
entry for it appears in the recorded errors. -/
theorem c7_skipped_secret (url : String)
    (secrets : List (String × Option String)) (env : Env) (o n : String)
    (hparse : extract_repo_info url = Except.ok (o, n))
    (hcheck : env.checkResult = Except.ok true)
    (hnodup : (secrets.map Prod.fst).Nodup) :
    ∀ p ∈ secrets, truthy p.2 = false →
      secretStep env p = ((p.1, false), [], []) ∧
      (p.1, false) ∈ (process_repository url secrets env).1.secretsAdded ∧
      Event.secretApi p.1 ∉ (process_repository url secrets env).2 ∧
      ("Failed to set secret " ++ p.1) ∉ (process_repository url secrets env).1.errors := by
  intro p hp hskip
  rw [process_repository_reachable url secrets env o n hparse hcheck]
  refine ⟨?_, ?_, ?_, ?_⟩
  · simp [secretStep, hskip]
  · simp only [RResult.secretsAdded, secretsStage_added]
    have hval : (p.1, false) =
        (fun q => (q.1, if truthy q.2 then apiCreated (env.secretOutcome q.1)
          else false)) p := by
      simp [hskip]
    rw [hval]
    exact List.mem_map_of_mem _ hp
  · intro hmem
    rcases List.mem_cons.mp hmem with h | h
    · exact Event.noConfusion h
    · rcases List.mem_append.mp h with h | h
      · rcases List.mem_append.mp h with h | h
        · exact secretApi_not_mem_wfEvents env p.1 h
        · exact secretApi_not_mem_secEvents env secrets p hp hskip hnodup h
      · simp at h
  · intro hmem
    rcases List.mem_append.mp hmem with h | h
    · rcases List.mem_append.mp h with h | h
      · exact secret_err_not_mem_workflowStage env p.1 h
      · exact secret_err_not_mem_secErrs env secrets p hp hskip hnodup h
    · exact secret_err_not_mem_perm _ p.1 h

/-- C7 witness: the secret "B" has no configured value; it is recorded as
false with no API call and no error entry. -/
theorem c7_witness :
    secretStep envAllOk ("B", none) = (("B", false), [], []) ∧
    ("B", false) ∈ (process_repository "https://github.com/o/r"
        [("A", some "v"), ("B", none)] envAllOk).1.secretsAdded ∧
    Event.secretApi "B" ∉ (process_repository "https://github.com/o/r"
        [("A", some "v"), ("B", none)] envAllOk).2 ∧
    ("Failed to set secret " ++ "B") ∉ (process_repository "https://github.com/o/r"
        [("A", some "v"), ("B", none)] envAllOk).1.errors :=
  c7_skipped_secret "https://github.com/o/r" [("A", some "v"), ("B", none)]
    envAllOk "o" "r" rfl rfl (by decide) ("B", none) (by decide) rfl

/-! ## Claim C10 -/

/-- C10: whenever processing reaches the secret-provisioning stage, the
`secrets_added` mapping has exactly one entry per configured secret, in
configuration order — its key list equals the configured name list,
skipped secrets included. -/
theorem c10_secrets_added_keys (url : String)
    (secrets : List (String × Option String)) (env : Env) (o n : String)
    (hparse : extract_repo_info url = Except.ok (o, n))
    (hcheck : env.checkResult = Except.ok true) :
    ((process_repository url secrets env).1.secretsAdded).map Prod.fst =
      secrets.map Prod.fst := by
  rw [process_repository_reachable url secrets env o n hparse hcheck]
  simp only [RResult.secretsAdded, secretsStage_added, List.map_map]
  rfl

/-- C10 witness: four configured secrets, two of them skipped, still give
exactly the four configured keys. -/
theorem c10_witness :
    ((process_repository "https://github.com/o/r"
        (SECRETS_TO_ADD (fun nm => if nm == "AWS_REGION" then some "eu-west-1"
          else if nm == "AWS_ACCESS_KEY_ID" then some "id" else none))
        envAllOk).1.secretsAdded).map Prod.fst =
      (SECRETS_TO_ADD (fun nm => if nm == "AWS_REGION" then some "eu-west-1"
        else if nm == "AWS_ACCESS_KEY_ID" then some "id" else none)).map Prod.fst :=
  c10_secrets_added_keys "https://github.com/o/r"
    (SECRETS_TO_ADD (fun nm => if nm == "AWS_REGION" then some "eu-west-1"
      else if nm == "AWS_ACCESS_KEY_ID" then some "id" else none))
    envAllOk "o" "r" rfl rfl

/-! ## Claim C8 -/

/-- C8: the run exits with code 1 and an empty result list — before any
repository is processed — when the token is unset or the workflow source
directory is missing; otherwise it processes every configured repository
in order and exits with code 0, whatever the individual outcomes are. -/
theorem c8_exit_behavior (t d : Bool) (secrets : List (String × Option String))
    (envs : String → Env) :
    ((t = false ∨ d = false) → runScript t d secrets envs = (1, [])) ∧
    (t = true → d = true →
      (runScript t d secrets envs).1 = 0 ∧
      (runScript t d secrets envs).2 =
        repo_urls.map (fun u => (process_repository u secrets (envs u)).1)) := by
  constructor
  · rintro (h | h)
    · simp [runScript, h]
    · cases t <;> simp [runScript, h]
  · intro ht hd
    simp [runScript, ht, hd]

/-- C8 witness: token present and directory present give exit code 0 with
all three configured repositories processed. -/
theorem c8_witness :
    (runScript true true [] (fun _ => envAllOk)).1 = 0 ∧
    (runScript true true [] (fun _ => envAllOk)).2 =
      repo_urls.map (fun u => (process_repository u [] envAllOk).1) :=
  (c8_exit_behavior true true [] (fun _ => envAllOk)).2 rfl rfl

end Automate
